import Mathlib

/-!
# kvm: capture ring, stall watchdog and frame pool

A shallow embedding of `kvm_core/src/kvm_frame.cpp` (the `FramePool`) and of
`kvm_capture/src/kvm_capture.cpp` (the `V4L2Capture` buffer ring, its capture
loop and its shutdown), with the properties of the written specification
stated and settled over it.

Conventions.
* A C++ `int` is an `Int` kept in the range `[-2^31, 2^31)` by `wrap32` after
  every arithmetic operation; bitwise operations act on the 32-bit pattern.
* A raw pointer is an `Int` address, `0` being `nullptr`.
* A `std::shared_ptr<Frame>` is the value of the `Frame` it points to,
  `none` being the null pointer.
-/

namespace kvm

/-! ## Machine integers -/

/-- Value of a 32-bit two's complement pattern: the `int` that a
mathematical result becomes after it is stored. -/
def wrap32 (x : Int) : Int := (x + 2147483648) % 4294967296 - 2147483648

/-- The 32-bit pattern of an `int`, as an unsigned number. -/
def toU32 (x : Int) : Nat := (x % 4294967296).toNat

/-- Bitwise complement of an `int` (`~x`). -/
def not32 (x : Int) : Int := wrap32 (-x - 1)

/-- Bitwise conjunction of two `int`s (`a & b`), on their 32-bit patterns. -/
def and32 (a b : Int) : Int := wrap32 (Int.ofNat (Nat.land (toU32 a) (toU32 b)))

/-- Addition of `int`s. -/
def add32 (a b : Int) : Int := wrap32 (a + b)

/-- Multiplication of `int`s. -/
def mul32 (a b : Int) : Int := wrap32 (a * b)

/-- Division of `int`s, which truncates toward zero. -/
def div32 (a b : Int) : Int := wrap32 (Int.tdiv a b)

/-! ## Frame pool (`kvm_frame.cpp`) -/

/-- The pixel formats. `kvm_frame.hpp` is not among the sources; the three
enumerators are the ones `FramePool::Allocate` names, and `Other` stands for
every further value of the enumeration. -/
inductive PixelFormat where
  | RGB24
  | YUV420P
  | YUV422P
  | Other (tag : Nat)
  deriving DecidableEq, Repr

/-- The fields of `Frame` that `FramePool::Allocate` writes. `Planes` holds
the three plane pointers as addresses. -/
structure Frame where
  Width : Int
  Height : Int
  Format : PixelFormat
  Planes0 : Int
  Planes1 : Int
  Planes2 : Int
  deriving DecidableEq, Repr

/-- Function `RoundUp32`: `(x + 31) & ~31`. -/
def RoundUp32 (x : Int) : Int := and32 (add32 x 31) (not32 31)

/-- Function `RoundUp16`: `(x + 15) & ~15`. -/
def RoundUp16 (x : Int) : Int := and32 (add32 x 15) (not32 15)

/-- What one call of `FramePool::Allocate` produces: the returned pointer,
the free list afterwards, and the byte counts passed to `AlignedAllocate`
during the call, in order. -/
structure AllocateResult where
  frame : Option Frame
  Freed : List (Option Frame)
  requests : List Int
  deriving DecidableEq, Repr

/-- Method `FramePool::Allocate`. `Freed` is the free list, whose back is the last
element. `block` is the address that `AlignedAllocate` returns if it is
called. -/
def Allocate (Freed : List (Option Frame)) (w h : Int) (format : PixelFormat)
    (block : Int) : AllocateResult :=
  match Freed.getLast? with
  | some frame => { frame := frame, Freed := Freed.dropLast, requests := [] }
  | none =>
    let Width := RoundUp32 w
    let Height := RoundUp16 h
    if format = PixelFormat.RGB24 then
      let bytes := mul32 (mul32 Width Height) 3
      { frame := some { Width := Width, Height := Height, Format := format,
                        Planes0 := block, Planes1 := 0, Planes2 := 0 },
        Freed := Freed, requests := [bytes] }
    else
      let y_plane_bytes := mul32 w h
      if format = PixelFormat.YUV420P then
        let uv_plane_bytes := div32 y_plane_bytes 4
        let bytes := add32 y_plane_bytes (mul32 uv_plane_bytes 2)
        { frame := some { Width := Width, Height := Height, Format := format,
                          Planes0 := block,
                          Planes1 := block + y_plane_bytes,
                          Planes2 := block + y_plane_bytes + uv_plane_bytes },
          Freed := Freed, requests := [bytes] }
      else if format = PixelFormat.YUV422P then
        let uv_plane_bytes := div32 y_plane_bytes 2
        let bytes := add32 y_plane_bytes (mul32 uv_plane_bytes 2)
        { frame := some { Width := Width, Height := Height, Format := format,
                          Planes0 := block,
                          Planes1 := block + y_plane_bytes,
                          Planes2 := block + y_plane_bytes + uv_plane_bytes },
          Freed := Freed, requests := [bytes] }
      else
        { frame := none, Freed := Freed, requests := [] }

/-- Method `FramePool::Release`: `Freed.push_back(frame)`. -/
def Release (Freed : List (Option Frame)) (frame : Option Frame) : List (Option Frame) :=
  Freed ++ [frame]

/-! ## Capture ring (`kvm_capture.cpp`) -/

/-- One entry of `V4L2Capture::Buffers`, with the fields the capture code
uses (`kvm_capture.hpp` is not among the sources). `Image` is the mapped
address, `0` when the buffer is not mapped. -/
structure CameraBuffer where
  Image : Int
  Bytes : Nat
  Queued : Bool
  AppOwns : Bool
  deriving DecidableEq, Repr

/-- The members of `V4L2Capture` that the modelled functions read or write.
`Buffers` is the array of `kCameraBufferCount` entries, so the constant
`kCameraBufferCount` is the length of the list. -/
structure V4L2Capture where
  fd : Int
  Buffers : List CameraBuffer
  Terminated : Bool
  ErrorState : Bool
  deriving DecidableEq, Repr

/-- The constant `kCameraBufferCount`: the number of entries of `Buffers`. -/
def kCameraBufferCount (s : V4L2Capture) : Nat := s.Buffers.length

/-- Method `V4L2Capture::GetAppOwnedCount`: the loop over `Buffers` that increments
an `int` for each entry with `AppOwns` set. -/
def GetAppOwnedCount (s : V4L2Capture) : Int :=
  s.Buffers.foldl (fun count buffer => if buffer.AppOwns then add32 count 1 else count) 0

/-- Method `V4L2Capture::QueueBuffer(index)`. `r` is what `safe_ioctl(fd, VIDIOC_QBUF)`
returns. The result is the state afterwards and the returned `bool`; it is
`none` when `index` is outside `Buffers`, where the source has no defined
behaviour. -/
def QueueBuffer (s : V4L2Capture) (index : Nat) (r : Int) : Option (V4L2Capture × Bool) :=
  match s.Buffers[index]? with
  | none => none
  | some buffer =>
    let buffer1 := { buffer with Queued := true, AppOwns := false }
    if r < 0 then
      some ({ s with Buffers := s.Buffers.set index { buffer1 with Queued := false } }, false)
    else
      some ({ s with Buffers := s.Buffers.set index buffer1 }, true)

/-- The fields of `struct v4l2_buffer` that `AcquireFrame` reads after
`VIDIOC_DQBUF`. `index`, `flags`, `sequence` and `bytesused` are unsigned
32-bit values. -/
structure V4l2Buffer where
  index : Nat
  flags : Nat
  sequence : Nat
  tv_sec : Int
  tv_usec : Int
  bytesused : Nat
  deriving DecidableEq, Repr

/-- What the device does during one `AcquireFrame`: the value `poll` returns,
the value `safe_ioctl(fd, VIDIOC_DQBUF)` returns, and the buffer description
the driver fills in. -/
structure DriverInput where
  pollResult : Int
  dqbufResult : Int
  buf : V4l2Buffer
  deriving DecidableEq, Repr

/-- A `CameraFrame`. `ReleaseFunc` is the closure `[this, index]`, held as
the captured `index`; invoking it is `invokeRelease`. -/
structure CameraFrame where
  FrameNumber : Nat
  ShutterUsec : Nat
  Image : Int
  ImageBytes : Nat
  ReleaseFunc : Int
  deriving DecidableEq, Repr

/-- What one call of `AcquireFrame` produces: the state at the point where
the function returns or calls `Handler`, the descriptor passed to `Handler`
(`none` when `Handler` is not called), and the returned `bool`. What the
handler does with the descriptor is not part of the call. -/
structure AcquireResult where
  cap : V4L2Capture
  handled : Option CameraFrame
  ret : Bool
  deriving DecidableEq, Repr

/-- Method `V4L2Capture::AcquireFrame`. `d` is what the device does during the call. -/
def AcquireFrame (s : V4L2Capture) (d : DriverInput) : AcquireResult :=
  if d.pollResult < 0 then { cap := s, handled := none, ret := false }
  else if d.pollResult = 0 then { cap := s, handled := none, ret := false }
  else if d.dqbufResult < 0 then { cap := s, handled := none, ret := false }
  else
    let index : Int := wrap32 (Int.ofNat d.buf.index)
    if h : index < 0 ∨ index ≥ wrap32 (Int.ofNat (kCameraBufferCount s)) then
      { cap := s, handled := none, ret := false }
    else
      let buffer := s.Buffers.get ⟨index.toNat, by
        unfold wrap32 kCameraBufferCount at h
        simp only [Int.ofNat_eq_coe] at h
        omega⟩
      let buffer1 := { buffer with AppOwns := true, Queued := false }
      let frame : CameraFrame :=
        { FrameNumber := d.buf.sequence,
          ShutterUsec := ((d.buf.tv_sec * 1000000 + d.buf.tv_usec) % 18446744073709551616).toNat,
          Image := buffer1.Image,
          ImageBytes := d.buf.bytesused,
          ReleaseFunc := index }
      { cap := { s with Buffers := s.Buffers.set index.toNat buffer1 },
        handled := some frame, ret := true }

/-- Invoking `frame->ReleaseFunc()`: `QueueBuffer(index)` with the captured
`int` converted to `unsigned`. -/
def invokeRelease (s : V4L2Capture) (frame : CameraFrame) (r : Int) :
    Option (V4L2Capture × Bool) :=
  QueueBuffer s (toU32 frame.ReleaseFunc) r

/-! ## Capture loop and stall watchdog -/

/-- The state one iteration of `V4L2Capture::Loop` works on: the local `t0`
(a `uint64_t`) and the member `ErrorState`. -/
structure LoopState where
  t0 : Nat
  ErrorState : Bool
  deriving DecidableEq, Repr

/-- The `int64_t` that a `uint64_t` value converts to. -/
def toI64 (n : Nat) : Int :=
  (Int.ofNat n + 9223372036854775808) % 18446744073709551616 - 9223372036854775808

/-- Subtraction of `uint64_t` values. -/
def sub64 (a b : Nat) : Nat := ((Int.ofNat a - Int.ofNat b) % 18446744073709551616).toNat

/-- The state in which `Loop` starts: `Initialize` has stored
`ErrorState = false` and `Loop` reads the clock into `t0`. -/
def LoopStart (now : Nat) : LoopState := { t0 := now, ErrorState := false }

/-- The body of the `while` loop of `V4L2Capture::Loop` after `AcquireFrame`
has returned `got_frame`; `now` is what `GetTimeMsec()` returns in this
iteration. -/
def LoopIteration (st : LoopState) (got_frame : Bool) (now : Nat) : LoopState :=
  if !got_frame then
    let t1 := now
    let dt := toI64 (sub64 t1 st.t0)
    if dt > 2000 then { t0 := t1, ErrorState := true }
    else st
  else
    { st with t0 := now }

/-! ## Shutdown -/

/-- The points of `V4L2Capture::Shutdown` between which other threads can
run: before the call, at the head of the drain loop, after the drain loop
before the buffers are unmapped, and after the return. -/
inductive ShutdownPc where
  | entry
  | drain
  | unmap
  | done
  deriving DecidableEq, Repr

/-- A capture object together with the point its `Shutdown` call has reached. -/
structure ShutdownState where
  cap : V4L2Capture
  pc : ShutdownPc
  deriving DecidableEq, Repr

/-- The unmapping loop of `Shutdown`: every mapped buffer is unmapped and its
`Image` set to `nullptr`. -/
def unmapBuffers (bs : List CameraBuffer) : List CameraBuffer :=
  bs.map (fun buffer => if buffer.Image ≠ 0 then { buffer with Image := 0 } else buffer)

/-- One step of the thread that runs `V4L2Capture::Shutdown`.
* `entry`: return at once when `fd == -1`; otherwise set `Terminated`, join
  the capture thread and stop streaming, and reach the drain loop.
* `drain`: read `GetAppOwnedCount()`; when it is positive, sleep and stay in
  the loop, otherwise leave the loop.
* `unmap`: unmap every buffer, release the driver's buffers, close the
  device and set `fd = -1`. -/
def ShutdownStep (st : ShutdownState) : ShutdownState :=
  match st.pc with
  | ShutdownPc.entry =>
    if st.cap.fd = -1 then { st with pc := ShutdownPc.done }
    else { cap := { st.cap with Terminated := true }, pc := ShutdownPc.drain }
  | ShutdownPc.drain =>
    let count := GetAppOwnedCount st.cap
    if count > 0 then st
    else { st with pc := ShutdownPc.unmap }
  | ShutdownPc.unmap =>
    { cap := { st.cap with Buffers := unmapBuffers st.cap.Buffers, fd := -1 },
      pc := ShutdownPc.done }
  | ShutdownPc.done => st

/-- What can happen while `Shutdown` is in progress: the shutting-down thread
takes its next step, or the application invokes the release action of a
descriptor it holds (`QueueBuffer(index)`, with `r` the driver's answer). The
capture thread has been joined, so no `AcquireFrame` runs. -/
inductive ShutdownEvent where
  | step
  | release (index : Nat) (r : Int)
  deriving DecidableEq, Repr

/-- The effect of one event; `none` when a release names an index outside
the ring. -/
def shutdownEvent (st : ShutdownState) : ShutdownEvent → Option ShutdownState
  | ShutdownEvent.step => some (ShutdownStep st)
  | ShutdownEvent.release index r =>
    match QueueBuffer st.cap index r with
    | none => none
    | some (cap, _) => some { st with cap := cap }

/-- The effect of a sequence of events, from left to right. -/
def shutdownRun (st : ShutdownState) : List ShutdownEvent → Option ShutdownState
  | [] => some st
  | e :: es =>
    match shutdownEvent st e with
    | none => none
    | some st1 => shutdownRun st1 es

/-! ## Ring events -/

/-- The operations that change the flags of the ring: a `QueueBuffer(index)`
call, one `AcquireFrame`, and the release action of a descriptor. -/
inductive RingEvent where
  | queue (index : Nat) (r : Int)
  | acquire (d : DriverInput)
  | release (frame : CameraFrame) (r : Int)
  deriving DecidableEq, Repr

/-- The effect of one ring event; `none` when a buffer outside the ring is
named. -/
def ringEvent (s : V4L2Capture) : RingEvent → Option V4L2Capture
  | RingEvent.queue index r => (QueueBuffer s index r).map Prod.fst
  | RingEvent.acquire d => some (AcquireFrame s d).cap
  | RingEvent.release frame r => (invokeRelease s frame r).map Prod.fst

/-- The effect of a sequence of ring events, from left to right. -/
def ringRun (s : V4L2Capture) : List RingEvent → Option V4L2Capture
  | [] => some s
  | e :: es =>
    match ringEvent s e with
    | none => none
    | some s1 => ringRun s1 es

/-- The ring before `Initialize` has queued anything: no buffer is `Queued`
and none is `AppOwns`. -/
def initialRing (s : V4L2Capture) : Prop :=
  ∀ b ∈ s.Buffers, b.Queued = false ∧ b.AppOwns = false

/-- No buffer has `Queued` and `AppOwns` set together. -/
def ringConsistent (s : V4L2Capture) : Prop :=
  ∀ b ∈ s.Buffers, ¬ (b.Queued = true ∧ b.AppOwns = true)

/-- A ring of four mapped buffers, all queued, as `Initialize` leaves it. -/
def ring4 : V4L2Capture :=
  { fd := 3, Terminated := false, ErrorState := false,
    Buffers := [⟨4096, 100, true, false⟩, ⟨8192, 100, true, false⟩,
                ⟨12288, 100, true, false⟩, ⟨16384, 100, true, false⟩] }



/-- The three states of a ring buffer. -/
inductive BufferStatus where
  | Free
  | Queued
  | AppOwned
  deriving DecidableEq, Repr

/-- The state that the two flags of a buffer encode; `none` when both are
set, which is no state. -/
def bufferStatus (b : CameraBuffer) : Option BufferStatus :=
  match b.Queued, b.AppOwns with
  | false, false => some BufferStatus.Free
  | true, false => some BufferStatus.Queued
  | false, true => some BufferStatus.AppOwned
  | true, true => none

/-- A ring event names a buffer of a ring of `n` buffers. -/
def eventInRange (n : Nat) : RingEvent → Prop
  | RingEvent.queue index _ => index < n
  | RingEvent.acquire _ => True
  | RingEvent.release frame _ => toU32 frame.ReleaseFunc < n

/-- A device answer: ready, dequeue accepted, buffer 2 with sequence 77. -/
def dequeue2 : DriverInput :=
  { pollResult := 1, dqbufResult := 0,
    buf := { index := 2, flags := 0, sequence := 77, tv_sec := 5, tv_usec := 6,
             bytesused := 50 } }

/-- A ring of four mapped buffers before any of them is queued. -/
def ringFree : V4L2Capture :=
  { fd := 3, Terminated := false, ErrorState := false,
    Buffers := [⟨4096, 100, false, false⟩, ⟨8192, 100, false, false⟩,
                ⟨12288, 100, false, false⟩, ⟨16384, 100, false, false⟩] }

/-- A history of the ring: every buffer is queued, the driver refusing
buffer 0; buffer 2 is dequeued and released; buffer 3 is dequeued and kept;
the device then reports a timeout, an index outside the ring, and buffer 1 is
queued a second time. -/
def ringDemoEvents : List RingEvent :=
  [RingEvent.queue 0 (-1), RingEvent.queue 1 0, RingEvent.queue 2 0, RingEvent.queue 3 0,
   RingEvent.acquire dequeue2,
   RingEvent.release ⟨77, 5000006, 12288, 50, 2⟩ 0,
   RingEvent.acquire ⟨1, 0, ⟨3, 0, 78, 5, 7, 50⟩⟩,
   RingEvent.acquire ⟨0, 0, ⟨0, 0, 0, 0, 0, 0⟩⟩,
   RingEvent.acquire ⟨1, 0, ⟨4294967295, 0, 79, 5, 8, 50⟩⟩,
   RingEvent.queue 1 0]

/-- A capture object with three mapped buffers, the second held by the
application. -/
def shutdownDemo : V4L2Capture :=
  { fd := 3, Terminated := false, ErrorState := false,
    Buffers := [⟨4096, 100, true, false⟩, ⟨8192, 100, false, true⟩,
                ⟨12288, 100, true, false⟩] }

/-- A shutdown of `shutdownDemo`: the call enters, finds one buffer held and
waits twice, the application releases the buffer, and the drain loop ends. -/
def shutdownDemoEvents : List ShutdownEvent :=
  [ShutdownEvent.step, ShutdownEvent.step, ShutdownEvent.step,
   ShutdownEvent.release 1 0, ShutdownEvent.step]

/-- The state `shutdownDemoEvents` leads to: every buffer returned, nothing
unmapped yet. -/
def shutdownDemoDrained : ShutdownState :=
  { cap := { fd := 3, Terminated := true, ErrorState := false,
             Buffers := [⟨4096, 100, true, false⟩, ⟨8192, 100, true, false⟩,
                         ⟨12288, 100, true, false⟩] },
    pc := ShutdownPc.unmap }

/-- The least multiple of `m` that is at least `x`. -/
def IsLeastMultiple (m x v : Int) : Prop :=
  v % m = 0 ∧ x ≤ v ∧ ∀ k : Int, k % m = 0 → x ≤ k → v ≤ k

/-! ## Machine arithmetic lemmas -/

theorem wrap32_id (x : Int) (h0 : -2147483648 ≤ x) (h1 : x < 2147483648) : wrap32 x = x := by
  unfold wrap32
  omega

theorem toU32_nonneg (x : Int) (h0 : 0 ≤ x) (h1 : x < 4294967296) : toU32 x = x.toNat := by
  unfold toU32
  rw [Int.emod_eq_of_lt h0 h1]

theorem land_mask32 (n : Nat) (hn : n < 4294967296) :
    Nat.land n 4294967264 = n / 32 * 32 := by
  show n &&& 4294967264 = n / 32 * 32
  apply Nat.eq_of_testBit_eq
  intro i
  have e : n / 32 * 32 = (n >>> 5) <<< 5 := by
    rw [Nat.shiftLeft_eq, Nat.shiftRight_eq_div_pow]
  rw [e, Nat.testBit_and, Nat.testBit_shiftLeft, Nat.testBit_shiftRight]
  by_cases hi : i < 32
  · interval_cases i <;> simp [Nat.testBit, Nat.shiftRight_eq_div_pow]
  · have h1 : n.testBit i = false := by
      apply Nat.testBit_eq_false_of_lt
      calc n < 2 ^ 32 := hn
        _ ≤ 2 ^ i := Nat.pow_le_pow_right (by norm_num) (by omega)
    have h2 : 5 + (i - 5) = i := by omega
    simp [h1, h2]

theorem land_mask16 (n : Nat) (hn : n < 4294967296) :
    Nat.land n 4294967280 = n / 16 * 16 := by
  show n &&& 4294967280 = n / 16 * 16
  apply Nat.eq_of_testBit_eq
  intro i
  have e : n / 16 * 16 = (n >>> 4) <<< 4 := by
    rw [Nat.shiftLeft_eq, Nat.shiftRight_eq_div_pow]
  rw [e, Nat.testBit_and, Nat.testBit_shiftLeft, Nat.testBit_shiftRight]
  by_cases hi : i < 32
  · interval_cases i <;> simp [Nat.testBit, Nat.shiftRight_eq_div_pow]
  · have h1 : n.testBit i = false := by
      apply Nat.testBit_eq_false_of_lt
      calc n < 2 ^ 32 := hn
        _ ≤ 2 ^ i := Nat.pow_le_pow_right (by norm_num) (by omega)
    have h2 : 4 + (i - 4) = i := by omega
    simp [h1, h2]

theorem RoundUp32_eq (x : Int) (h0 : 0 ≤ x) (h1 : x + 31 < 2147483648) :
    RoundUp32 x = (x + 31) / 32 * 32 := by
  have hm : toU32 (not32 31) = 4294967264 := by decide
  unfold RoundUp32 and32 add32
  rw [hm, wrap32_id (x + 31) (by omega) h1, toU32_nonneg (x + 31) (by omega) (by omega),
    land_mask32 _ (by omega)]
  have hc : Int.ofNat ((x + 31).toNat / 32 * 32) = (x + 31) / 32 * 32 := by
    simp only [Int.ofNat_eq_coe]
    push_cast
    rw [Int.toNat_of_nonneg (by omega)]
  rw [hc]
  apply wrap32_id <;> omega

theorem RoundUp16_eq (x : Int) (h0 : 0 ≤ x) (h1 : x + 15 < 2147483648) :
    RoundUp16 x = (x + 15) / 16 * 16 := by
  have hm : toU32 (not32 15) = 4294967280 := by decide
  unfold RoundUp16 and32 add32
  rw [hm, wrap32_id (x + 15) (by omega) h1, toU32_nonneg (x + 15) (by omega) (by omega),
    land_mask16 _ (by omega)]
  have hc : Int.ofNat ((x + 15).toNat / 16 * 16) = (x + 15) / 16 * 16 := by
    simp only [Int.ofNat_eq_coe]
    push_cast
    rw [Int.toNat_of_nonneg (by omega)]
  rw [hc]
  apply wrap32_id <;> omega

theorem RoundUp32_least (x : Int) (h0 : 0 ≤ x) (h1 : x + 31 < 2147483648) :
    IsLeastMultiple 32 x (RoundUp32 x) := by
  rw [RoundUp32_eq x h0 h1]
  refine ⟨by omega, by omega, ?_⟩
  intro k hk hx
  omega

theorem RoundUp16_least (x : Int) (h0 : 0 ≤ x) (h1 : x + 15 < 2147483648) :
    IsLeastMultiple 16 x (RoundUp16 x) := by
  rw [RoundUp16_eq x h0 h1]
  refine ⟨by omega, by omega, ?_⟩
  intro k hk hx
  omega

/-! ## Frame pool -/

theorem planar_bytes (w h d : Int) (hw : 0 ≤ w) (hh : 0 ≤ h) (hd : d = 4 ∨ d = 2)
    (hb : w * h + 2 * (w * h / d) < 2147483648) :
    mul32 w h = w * h ∧ div32 (mul32 w h) d = w * h / d ∧
      add32 (mul32 w h) (mul32 (div32 (mul32 w h) d) 2) = w * h + 2 * (w * h / d) := by
  have hp : 0 ≤ w * h := mul_nonneg hw hh
  have hq : 0 ≤ w * h / d := by
    rcases hd with rfl | rfl <;> omega
  have e1 : mul32 w h = w * h := wrap32_id _ (by omega) (by omega)
  have e2 : div32 (w * h) d = w * h / d := by
    unfold div32
    rw [Int.tdiv_eq_ediv hp (by rcases hd with rfl | rfl <;> omega)]
    exact wrap32_id _ (by omega) (by omega)
  have e3 : mul32 (w * h / d) 2 = 2 * (w * h / d) := by
    unfold mul32
    rw [mul_comm]
    exact wrap32_id _ (by omega) (by omega)
  refine ⟨e1, by rw [e1, e2], ?_⟩
  rw [e1, e2, e3]
  exact wrap32_id _ (by omega) (by omega)

theorem yuv420p_miss (w h block : Int) (hw : 0 ≤ w) (hh : 0 ≤ h)
    (hb : w * h + 2 * (w * h / 4) < 2147483648) :
    Allocate [] w h PixelFormat.YUV420P block =
      { frame := some { Width := RoundUp32 w, Height := RoundUp16 h,
                        Format := PixelFormat.YUV420P, Planes0 := block,
                        Planes1 := block + w * h, Planes2 := block + w * h + w * h / 4 },
        Freed := [], requests := [w * h + 2 * (w * h / 4)] } := by
  obtain ⟨e1, e2, e3⟩ := planar_bytes w h 4 hw hh (Or.inl rfl) hb
  rw [e1] at e2 e3
  rw [e2] at e3
  simp [Allocate, e3, e2, e1]

theorem yuv422p_miss (w h block : Int) (hw : 0 ≤ w) (hh : 0 ≤ h)
    (hb : w * h + 2 * (w * h / 2) < 2147483648) :
    Allocate [] w h PixelFormat.YUV422P block =
      { frame := some { Width := RoundUp32 w, Height := RoundUp16 h,
                        Format := PixelFormat.YUV422P, Planes0 := block,
                        Planes1 := block + w * h, Planes2 := block + w * h + w * h / 2 },
        Freed := [], requests := [w * h + 2 * (w * h / 2)] } := by
  obtain ⟨e1, e2, e3⟩ := planar_bytes w h 2 hw hh (Or.inr rfl) hb
  rw [e1] at e2 e3
  rw [e2] at e3
  simp [Allocate, e3, e2, e1]

theorem rgb24_miss (w h block : Int)
    (hb0 : 0 ≤ RoundUp32 w * RoundUp16 h)
    (hb : RoundUp32 w * RoundUp16 h * 3 < 2147483648) :
    Allocate [] w h PixelFormat.RGB24 block =
      { frame := some { Width := RoundUp32 w, Height := RoundUp16 h,
                        Format := PixelFormat.RGB24, Planes0 := block,
                        Planes1 := 0, Planes2 := 0 },
        Freed := [], requests := [RoundUp32 w * RoundUp16 h * 3] } := by
  have e1 : mul32 (RoundUp32 w) (RoundUp16 h) = RoundUp32 w * RoundUp16 h :=
    wrap32_id _ (by omega) (by omega)
  have e2 : mul32 (RoundUp32 w * RoundUp16 h) 3 = RoundUp32 w * RoundUp16 h * 3 :=
    wrap32_id _ (by omega) (by omega)
  simp only [Allocate, List.getLast?_nil, e1, e2]
  simp

/-- C2. `Release(f)` followed at once by `Allocate(w, h, format)` returns `f`,
whatever the request and whatever `f` is, calls `AlignedAllocate` not at all,
and leaves the free list as it was before the `Release`. -/
theorem Release_Allocate_roundtrip (Freed : List (Option Frame)) (f : Option Frame)
    (w h : Int) (format : PixelFormat) (block : Int) :
    Allocate (Release Freed f) w h format block =
      { frame := f, Freed := Freed, requests := [] } := by
  simp [Allocate, Release]

/-- C3. On an empty free list and without 32-bit overflow, `Allocate(w, h, format)`
for `YUV420P` (chroma divisor `d = 4`) and `YUV422P` (`d = 2`) makes one
`AlignedAllocate` call of `w*h + 2*((w*h)/d)` bytes and returns a frame of that
format whose `Width` is the least multiple of 32 that is at least `w`, whose
`Height` is the least multiple of 16 that is at least `h`, and whose planes
start at the block, `w*h` bytes further and `(w*h)/d` bytes further again: a
luma plane of `w*h` bytes and two chroma planes of `(w*h)/d` bytes each. -/
theorem Allocate_planar_layout (w h block d : Int) (format : PixelFormat)
    (hfmt : (format = PixelFormat.YUV420P ∧ d = 4) ∨ (format = PixelFormat.YUV422P ∧ d = 2))
    (hw : 0 ≤ w) (hh : 0 ≤ h) (hw31 : w + 31 < 2147483648) (hh15 : h + 15 < 2147483648)
    (hb : w * h + 2 * (w * h / d) < 2147483648) :
    ∃ f : Frame,
      Allocate [] w h format block =
        { frame := some f, Freed := [], requests := [w * h + 2 * (w * h / d)] } ∧
      f.Format = format ∧
      IsLeastMultiple 32 w f.Width ∧ IsLeastMultiple 16 h f.Height ∧
      f.Planes0 = block ∧ f.Planes1 - f.Planes0 = w * h ∧ f.Planes2 - f.Planes1 = w * h / d ∧
      (block + (w * h + 2 * (w * h / d))) - f.Planes2 = w * h / d := by
  rcases hfmt with ⟨rfl, rfl⟩ | ⟨rfl, rfl⟩
  · refine ⟨_, yuv420p_miss w h block hw hh hb, rfl,
      RoundUp32_least w hw hw31, RoundUp16_least h hh hh15, rfl, ?_, ?_, ?_⟩ <;>
      simp only <;> ring
  · refine ⟨_, yuv422p_miss w h block hw hh hb, rfl,
      RoundUp32_least w hw hw31, RoundUp16_least h hh hh15, rfl, ?_, ?_, ?_⟩ <;>
      simp only <;> ring

theorem Allocate_planar_layout_witness :
    ((PixelFormat.YUV420P = PixelFormat.YUV420P ∧ (4 : Int) = 4) ∨
      (PixelFormat.YUV420P = PixelFormat.YUV422P ∧ (4 : Int) = 2)) ∧
    (0 : Int) ≤ 100 ∧ (100 : Int) + 31 < 2147483648 ∧ (100 : Int) + 15 < 2147483648 ∧
    (100 : Int) * 100 + 2 * (100 * 100 / 4) < 2147483648 ∧
    Allocate [] 100 100 PixelFormat.YUV420P 4096 =
      { frame := some ⟨128, 112, PixelFormat.YUV420P, 4096, 4096 + 10000, 4096 + 10000 + 2500⟩,
        Freed := [], requests := [10000 + 2 * 2500] } ∧
    ∃ f : Frame,
      Allocate [] 100 100 PixelFormat.YUV420P 4096 =
        { frame := some f, Freed := [], requests := [100 * 100 + 2 * (100 * 100 / 4)] } ∧
      f.Format = PixelFormat.YUV420P ∧
      IsLeastMultiple 32 100 f.Width ∧ IsLeastMultiple 16 100 f.Height ∧
      f.Planes0 = 4096 ∧ f.Planes1 - f.Planes0 = 100 * 100 ∧
      f.Planes2 - f.Planes1 = 100 * 100 / 4 ∧
      (4096 + (100 * 100 + 2 * (100 * 100 / 4))) - f.Planes2 = 100 * 100 / 4 :=
  ⟨by decide, by decide, by decide, by decide, by decide, by decide,
    Allocate_planar_layout 100 100 4096 4 PixelFormat.YUV420P (by decide) (by decide)
      (by decide) (by decide) (by decide) (by decide)⟩

/-- C4. On an empty free list and without 32-bit overflow, `Allocate(w, h, RGB24)`
makes one `AlignedAllocate` call of `Width * Height * 3` bytes, where `Width`
is the least multiple of 32 that is at least `w` and `Height` the least
multiple of 16 that is at least `h`, and returns a frame whose first plane is
that block and whose second and third plane pointers are null. -/
theorem Allocate_rgb24_layout (w h block : Int)
    (hw : 0 ≤ w) (hh : 0 ≤ h) (hw31 : w + 31 < 2147483648) (hh15 : h + 15 < 2147483648)
    (hb : (w + 31) / 32 * 32 * ((h + 15) / 16 * 16) * 3 < 2147483648) :
    ∃ f : Frame,
      Allocate [] w h PixelFormat.RGB24 block =
        { frame := some f, Freed := [], requests := [f.Width * f.Height * 3] } ∧
      f.Format = PixelFormat.RGB24 ∧
      IsLeastMultiple 32 w f.Width ∧ IsLeastMultiple 16 h f.Height ∧
      f.Planes0 = block ∧ f.Planes1 = 0 ∧ f.Planes2 = 0 := by
  have e32 := RoundUp32_eq w hw hw31
  have e16 := RoundUp16_eq h hh hh15
  have h0 : 0 ≤ RoundUp32 w * RoundUp16 h := by
    rw [e32, e16]
    exact mul_nonneg (by omega) (by omega)
  exact ⟨_, rgb24_miss w h block h0 (by rw [e32, e16]; exact hb), rfl,
    RoundUp32_least w hw hw31, RoundUp16_least h hh hh15, rfl, rfl, rfl⟩

theorem Allocate_rgb24_layout_witness :
    (0 : Int) ≤ 800 ∧ (0 : Int) ≤ 600 ∧ (800 : Int) + 31 < 2147483648 ∧
    (600 : Int) + 15 < 2147483648 ∧
    ((800 : Int) + 31) / 32 * 32 * ((600 + 15) / 16 * 16) * 3 < 2147483648 ∧
    Allocate [] 800 600 PixelFormat.RGB24 4096 =
      { frame := some ⟨800, 608, PixelFormat.RGB24, 4096, 0, 0⟩,
        Freed := [], requests := [800 * 608 * 3] } ∧
    ∃ f : Frame,
      Allocate [] 800 600 PixelFormat.RGB24 4096 =
        { frame := some f, Freed := [], requests := [f.Width * f.Height * 3] } ∧
      f.Format = PixelFormat.RGB24 ∧
      IsLeastMultiple 32 800 f.Width ∧ IsLeastMultiple 16 600 f.Height ∧
      f.Planes0 = 4096 ∧ f.Planes1 = 0 ∧ f.Planes2 = 0 :=
  ⟨by decide, by decide, by decide, by decide, by decide, by decide,
    Allocate_rgb24_layout 800 600 4096 (by decide) (by decide) (by decide) (by decide)
      (by decide)⟩

/-- C5, as stated, fails: with a released frame on the free list, `Allocate`
called with an unsupported format returns that frame and removes it from the
free list. -/
theorem unsupported_format_pops_pool :
    PixelFormat.Other 7 ≠ PixelFormat.RGB24 ∧ PixelFormat.Other 7 ≠ PixelFormat.YUV420P ∧
    PixelFormat.Other 7 ≠ PixelFormat.YUV422P ∧
    Allocate [some ⟨128, 112, PixelFormat.YUV420P, 4096, 14096, 16596⟩] 10 10
        (PixelFormat.Other 7) 8192 =
      { frame := some ⟨128, 112, PixelFormat.YUV420P, 4096, 14096, 16596⟩,
        Freed := [], requests := [] } ∧
    ¬ ((Allocate [some ⟨128, 112, PixelFormat.YUV420P, 4096, 14096, 16596⟩] 10 10
          (PixelFormat.Other 7) 8192).frame = none ∧
       (Allocate [some ⟨128, 112, PixelFormat.YUV420P, 4096, 14096, 16596⟩] 10 10
          (PixelFormat.Other 7) 8192).Freed =
         [some ⟨128, 112, PixelFormat.YUV420P, 4096, 14096, 16596⟩]) := by
  decide

/-- C5, amended. `Allocate` called with a pixel format other than `RGB24`,
`YUV420P` and `YUV422P` never calls `AlignedAllocate`; when the free list is
empty it returns null and leaves the free list empty; when the free list is
not empty it returns the frame at its back and removes that frame. -/
theorem Allocate_unsupported (Freed : List (Option Frame)) (w h : Int)
    (format : PixelFormat) (block : Int)
    (h1 : format ≠ PixelFormat.RGB24) (h2 : format ≠ PixelFormat.YUV420P)
    (h3 : format ≠ PixelFormat.YUV422P) :
    (Allocate Freed w h format block).requests = [] ∧
    (Freed = [] → Allocate Freed w h format block =
      { frame := none, Freed := [], requests := [] }) ∧
    (∀ (rest : List (Option Frame)) (f : Option Frame), Freed = rest ++ [f] →
      Allocate Freed w h format block = { frame := f, Freed := rest, requests := [] }) := by
  have hempty : Allocate [] w h format block = { frame := none, Freed := [], requests := [] } := by
    simp [Allocate, h1, h2, h3]
  have hback : ∀ (rest : List (Option Frame)) (f : Option Frame),
      Allocate (rest ++ [f]) w h format block =
        { frame := f, Freed := rest, requests := [] } := by
    intro rest f
    simp [Allocate]
  refine ⟨?_, ?_, ?_⟩
  · rcases List.eq_nil_or_concat Freed with rfl | ⟨rest, f, rfl⟩
    · rw [hempty]
    · rw [List.concat_eq_append, hback]
  · rintro rfl
    exact hempty
  · rintro rest f rfl
    exact hback rest f

theorem Allocate_unsupported_witness :
    PixelFormat.Other 7 ≠ PixelFormat.RGB24 ∧ PixelFormat.Other 7 ≠ PixelFormat.YUV420P ∧
    PixelFormat.Other 7 ≠ PixelFormat.YUV422P ∧
    ((Allocate [] 640 480 (PixelFormat.Other 7) 4096).requests = [] ∧
     (([] : List (Option Frame)) = [] → Allocate [] 640 480 (PixelFormat.Other 7) 4096 =
        { frame := none, Freed := [], requests := [] }) ∧
     (∀ (rest : List (Option Frame)) (f : Option Frame), [] = rest ++ [f] →
        Allocate [] 640 480 (PixelFormat.Other 7) 4096 =
          { frame := f, Freed := rest, requests := [] })) :=
  ⟨by decide, by decide, by decide,
    Allocate_unsupported [] 640 480 (PixelFormat.Other 7) 4096 (by decide) (by decide)
      (by decide)⟩

/-- C10. For `w, h > 0` without 32-bit overflow, with `w` not a multiple of 32
or `h` not a multiple of 16, the block that `Allocate` requests on a miss has
`w*h + 2*((w*h)/4)` bytes for `YUV420P`, fewer than `Width*Height*3/2` of the
returned frame, and `w*h + 2*((w*h)/2)` bytes for `YUV422P`, fewer than
`Width*Height*2`; for `RGB24` the block has exactly `Width*Height*3` bytes. -/
theorem planar_block_smaller_than_recorded (w h block : Int)
    (hw : 0 < w) (hh : 0 < h) (hw31 : w + 31 < 2147483648) (hh15 : h + 15 < 2147483648)
    (hna : ¬ (w % 32 = 0) ∨ ¬ (h % 16 = 0)) :
    (w * h + 2 * (w * h / 4) < 2147483648 →
      ∃ f : Frame,
        Allocate [] w h PixelFormat.YUV420P block =
          { frame := some f, Freed := [], requests := [w * h + 2 * (w * h / 4)] } ∧
        w * h + 2 * (w * h / 4) < f.Width * f.Height * 3 / 2) ∧
    (w * h + 2 * (w * h / 2) < 2147483648 →
      ∃ f : Frame,
        Allocate [] w h PixelFormat.YUV422P block =
          { frame := some f, Freed := [], requests := [w * h + 2 * (w * h / 2)] } ∧
        w * h + 2 * (w * h / 2) < f.Width * f.Height * 2) ∧
    ((w + 31) / 32 * 32 * ((h + 15) / 16 * 16) * 3 < 2147483648 →
      ∃ f : Frame,
        Allocate [] w h PixelFormat.RGB24 block =
          { frame := some f, Freed := [], requests := [f.Width * f.Height * 3] }) := by
  have e32 := RoundUp32_eq w (le_of_lt hw) hw31
  have e16 := RoundUp16_eq h (le_of_lt hh) hh15
  have ha : w ≤ (w + 31) / 32 * 32 := by omega
  have hb : h ≤ (h + 15) / 16 * 16 := by omega
  have hstrict : w < (w + 31) / 32 * 32 ∨ h < (h + 15) / 16 * 16 := by
    rcases hna with hn | hn
    · left; omega
    · right; omega
  have hlt : w * h < (w + 31) / 32 * ((h + 15) / 16) * 512 := by
    have e : (w + 31) / 32 * ((h + 15) / 16) * 512 =
        ((w + 31) / 32 * 32) * ((h + 15) / 16 * 16) := by ring
    rw [e]
    rcases hstrict with hs | hs
    · calc w * h < (w + 31) / 32 * 32 * h := by
            exact mul_lt_mul_of_pos_right hs hh
        _ ≤ (w + 31) / 32 * 32 * ((h + 15) / 16 * 16) := by
            exact mul_le_mul_of_nonneg_left hb (by omega)
    · calc w * h < w * ((h + 15) / 16 * 16) := by
            exact mul_lt_mul_of_pos_left hs hw
        _ ≤ (w + 31) / 32 * 32 * ((h + 15) / 16 * 16) := by
            exact mul_le_mul_of_nonneg_right ha (by omega)
  have hprod : RoundUp32 w * RoundUp16 h = (w + 31) / 32 * ((h + 15) / 16) * 512 := by
    rw [e32, e16]; ring
  refine ⟨?_, ?_, ?_⟩
  · intro hov
    refine ⟨_, yuv420p_miss w h block (le_of_lt hw) (le_of_lt hh) hov, ?_⟩
    simp only
    rw [hprod]
    generalize w * h = p at hlt ⊢
    generalize (w + 31) / 32 * ((h + 15) / 16) = q at hlt ⊢
    omega
  · intro hov
    refine ⟨_, yuv422p_miss w h block (le_of_lt hw) (le_of_lt hh) hov, ?_⟩
    simp only
    rw [hprod]
    generalize w * h = p at hlt ⊢
    generalize (w + 31) / 32 * ((h + 15) / 16) = q at hlt ⊢
    omega
  · intro hov
    have h0 : 0 ≤ RoundUp32 w * RoundUp16 h := by
      rw [e32, e16]
      exact mul_nonneg (by omega) (by omega)
    exact ⟨_, rgb24_miss w h block h0 (by rw [e32, e16]; exact hov)⟩

theorem planar_block_smaller_than_recorded_witness :
    (0 : Int) < 100 ∧ (100 : Int) + 31 < 2147483648 ∧ (100 : Int) + 15 < 2147483648 ∧
    (¬ ((100 : Int) % 32 = 0) ∨ ¬ ((100 : Int) % 16 = 0)) ∧
    (Allocate [] 100 100 PixelFormat.YUV420P 4096).requests = [15000] ∧
    (15000 : Int) < 128 * 112 * 3 / 2 ∧
    ((100 : Int) * 100 + 2 * (100 * 100 / 4) < 2147483648 →
      ∃ f : Frame,
        Allocate [] 100 100 PixelFormat.YUV420P 4096 =
          { frame := some f, Freed := [], requests := [100 * 100 + 2 * (100 * 100 / 4)] } ∧
        100 * 100 + 2 * (100 * 100 / 4) < f.Width * f.Height * 3 / 2) :=
  ⟨by decide, by decide, by decide, by decide, by decide, by decide,
    (planar_block_smaller_than_recorded 100 100 4096 (by decide) (by decide) (by decide)
      (by decide) (by decide)).1⟩

/-! ## Stall watchdog -/

/-- C6, as stated, fails: the watchdog raises the flag after an empty
iteration 2001 ms after the start, and the iteration after it, whose dequeue
succeeds, resets the timer but leaves the flag raised. -/
theorem stall_flag_survives_dequeue :
    LoopIteration (LoopStart 0) false 2001 = { t0 := 2001, ErrorState := true } ∧
    LoopIteration (LoopIteration (LoopStart 0) false 2001) true 2002 =
      { t0 := 2002, ErrorState := true } ∧
    (LoopIteration (LoopIteration (LoopStart 0) false 2001) true 2002).ErrorState ≠ false := by
  decide

/-- C6, amended. When an empty iteration finds more than 2000 ms elapsed, the
watchdog raises the error-state flag and restarts the timer; the next
iteration whose dequeue succeeds resets the stall timer to the current time
and leaves the flag raised, and no iteration of the loop lowers a raised
flag. -/
theorem watchdog_flag_sticky (st : LoopState) (t1 : Nat)
    (hstall : toI64 (sub64 t1 st.t0) > 2000) :
    LoopIteration st false t1 = { t0 := t1, ErrorState := true } ∧
    (∀ now : Nat, LoopIteration (LoopIteration st false t1) true now =
      { t0 := now, ErrorState := true }) ∧
    (∀ (st1 : LoopState) (got_frame : Bool) (now : Nat), st1.ErrorState = true →
      (LoopIteration st1 got_frame now).ErrorState = true) := by
  have h1 : LoopIteration st false t1 = { t0 := t1, ErrorState := true } := by
    simp [LoopIteration, hstall]
  refine ⟨h1, ?_, ?_⟩
  · intro now
    rw [h1]
    simp [LoopIteration]
  · intro st1 got_frame now he
    unfold LoopIteration
    cases got_frame
    · by_cases hd : toI64 (sub64 now st1.t0) > 2000
      · simp [hd]
      · simp [hd, he]
    · simp [he]

theorem watchdog_flag_sticky_witness :
    toI64 (sub64 7001 5000) > 2000 ∧
    (LoopIteration ⟨5000, false⟩ false 7001 = { t0 := 7001, ErrorState := true } ∧
    (∀ now : Nat, LoopIteration (LoopIteration ⟨5000, false⟩ false 7001) true now =
      { t0 := now, ErrorState := true }) ∧
    (∀ (st1 : LoopState) (got_frame : Bool) (now : Nat), st1.ErrorState = true →
      (LoopIteration st1 got_frame now).ErrorState = true)) :=
  ⟨by decide, watchdog_flag_sticky ⟨5000, false⟩ 7001 (by decide)⟩

/-! ## Buffer ring -/

theorem QueueBuffer_eq (s : V4L2Capture) (index : Nat) (r : Int) (b : CameraBuffer)
    (hb : s.Buffers[index]? = some b) :
    QueueBuffer s index r =
      some (⟨s.fd, s.Buffers.set index { b with Queued := decide (0 ≤ r), AppOwns := false },
        s.Terminated, s.ErrorState⟩, decide (0 ≤ r)) := by
  unfold QueueBuffer
  rw [hb]
  by_cases hr : r < 0
  · have h0 : ¬ (0 ≤ r) := by omega
    simp [hr, h0]
  · have h0 : 0 ≤ r := by omega
    simp [hr, h0]

/-- C7, as stated, fails: when the driver refuses the re-queue of the
already queued buffer 2, `QueueBuffer(2)` leaves that buffer with `Queued`
cleared. -/
theorem refused_requeue_clears_queued :
    (⟨3, [⟨4096, 100, true, false⟩, ⟨8192, 100, true, false⟩, ⟨12288, 100, true, false⟩,
          ⟨16384, 100, true, false⟩], false, false⟩ : V4L2Capture).Buffers[2]? =
      some ⟨12288, 100, true, false⟩ ∧
    QueueBuffer ⟨3, [⟨4096, 100, true, false⟩, ⟨8192, 100, true, false⟩,
        ⟨12288, 100, true, false⟩, ⟨16384, 100, true, false⟩], false, false⟩ 2 (-1) =
      some (⟨3, [⟨4096, 100, true, false⟩, ⟨8192, 100, true, false⟩,
        ⟨12288, 100, false, false⟩, ⟨16384, 100, true, false⟩], false, false⟩, false) := by
  decide

/-- C7, amended. `QueueBuffer(i)` on a buffer that is already `Queued` returns
with `AppOwns` cleared on buffer `i` and every other buffer, and the rest of
the object, unchanged; buffer `i` is `Queued` when the driver accepts the
re-queue and not `Queued` when the driver refuses it, so the two flags are
never left set together. -/
theorem QueueBuffer_double_queue (s : V4L2Capture) (i : Nat) (r : Int) (b : CameraBuffer)
    (hb : s.Buffers[i]? = some b) (_hq : b.Queued = true) :
    ∃ s1 : V4L2Capture,
      QueueBuffer s i r = some (s1, decide (0 ≤ r)) ∧
      s1.Buffers.length = s.Buffers.length ∧
      s1.Buffers[i]? = some { b with Queued := decide (0 ≤ r), AppOwns := false } ∧
      (∀ j : Nat, j ≠ i → s1.Buffers[j]? = s.Buffers[j]?) ∧
      s1.fd = s.fd ∧ s1.Terminated = s.Terminated ∧ s1.ErrorState = s.ErrorState := by
  have hi : i < s.Buffers.length := (List.getElem?_eq_some.mp hb).1
  refine ⟨_, QueueBuffer_eq s i r b hb, ?_, ?_, ?_, rfl, rfl, rfl⟩
  · simp
  · simp [List.getElem?_set_self hi]
  · intro j hj
    simp [List.getElem?_set_ne (Ne.symm hj)]

theorem QueueBuffer_double_queue_witness :
    (⟨3, [⟨4096, 100, true, false⟩, ⟨8192, 100, true, false⟩], false, false⟩ :
        V4L2Capture).Buffers[1]? = some ⟨8192, 100, true, false⟩ ∧
    (⟨8192, 100, true, false⟩ : CameraBuffer).Queued = true ∧
    ∃ s1 : V4L2Capture,
      QueueBuffer ⟨3, [⟨4096, 100, true, false⟩, ⟨8192, 100, true, false⟩], false, false⟩ 1 0 =
        some (s1, decide ((0 : Int) ≤ 0)) ∧
      s1.Buffers.length =
        (⟨3, [⟨4096, 100, true, false⟩, ⟨8192, 100, true, false⟩], false, false⟩ :
          V4L2Capture).Buffers.length ∧
      s1.Buffers[1]? = some { (⟨8192, 100, true, false⟩ : CameraBuffer) with
        Queued := decide ((0 : Int) ≤ 0), AppOwns := false } ∧
      (∀ j : Nat, j ≠ 1 → s1.Buffers[j]? =
        (⟨3, [⟨4096, 100, true, false⟩, ⟨8192, 100, true, false⟩], false, false⟩ :
          V4L2Capture).Buffers[j]?) ∧
      s1.fd = 3 ∧ s1.Terminated = false ∧ s1.ErrorState = false :=
  ⟨by decide, by decide,
    QueueBuffer_double_queue
      ⟨3, [⟨4096, 100, true, false⟩, ⟨8192, 100, true, false⟩], false, false⟩ 1 0
      ⟨8192, 100, true, false⟩ (by decide) (by decide)⟩

theorem AcquireFrame_cases (s : V4L2Capture) (d : DriverInput) :
    AcquireFrame s d = { cap := s, handled := none, ret := false } ∨
    ∃ (i : Nat) (b : CameraBuffer) (frame : CameraFrame),
      b.Queued = false ∧ b.AppOwns = true ∧
      AcquireFrame s d =
        { cap := ⟨s.fd, s.Buffers.set i b, s.Terminated, s.ErrorState⟩,
          handled := some frame, ret := true } := by
  unfold AcquireFrame
  by_cases h1 : d.pollResult < 0
  · rw [if_pos h1]; exact Or.inl rfl
  · rw [if_neg h1]
    by_cases h2 : d.pollResult = 0
    · rw [if_pos h2]; exact Or.inl rfl
    · rw [if_neg h2]
      by_cases h3 : d.dqbufResult < 0
      · rw [if_pos h3]; exact Or.inl rfl
      · rw [if_neg h3]
        conv => zeta
        by_cases h4 : wrap32 (Int.ofNat d.buf.index) < 0 ∨
            wrap32 (Int.ofNat d.buf.index) ≥ wrap32 (Int.ofNat (kCameraBufferCount s))
        · left
          rw [dif_pos h4]
        · right
          rw [dif_neg h4]
          refine ⟨_, _, _, ?_, ?_, rfl⟩
          · rfl
          · rfl

theorem set_consistent (bs : List CameraBuffer) (i : Nat) (b : CameraBuffer)
    (hbs : ∀ x ∈ bs, ¬ (x.Queued = true ∧ x.AppOwns = true))
    (hb : ¬ (b.Queued = true ∧ b.AppOwns = true)) :
    ∀ x ∈ bs.set i b, ¬ (x.Queued = true ∧ x.AppOwns = true) := by
  intro x hx
  rcases List.mem_or_eq_of_mem_set hx with h | h
  · exact hbs x h
  · rw [h]; exact hb

theorem ringEvent_consistent (s : V4L2Capture) (e : RingEvent)
    (hc : ringConsistent s) (hr : eventInRange s.Buffers.length e) :
    ∃ s1 : V4L2Capture, ringEvent s e = some s1 ∧
      s1.Buffers.length = s.Buffers.length ∧ ringConsistent s1 := by
  have hq : ∀ (index : Nat) (r : Int), index < s.Buffers.length →
      ∃ s1 : V4L2Capture, (QueueBuffer s index r).map Prod.fst = some s1 ∧
        s1.Buffers.length = s.Buffers.length ∧ ringConsistent s1 := by
    intro index r hi
    have hb : s.Buffers[index]? = some s.Buffers[index] := List.getElem?_eq_getElem hi
    rw [QueueBuffer_eq s index r _ hb]
    refine ⟨_, rfl, by simp, ?_⟩
    exact set_consistent s.Buffers index _ hc (by simp)
  cases e with
  | queue index r => exact hq index r hr
  | release frame r => exact hq (toU32 frame.ReleaseFunc) r hr
  | acquire d =>
    refine ⟨_, rfl, ?_⟩
    rcases AcquireFrame_cases s d with h | ⟨i, b, frame, hbq, _, h⟩
    · rw [h]; exact ⟨rfl, hc⟩
    · rw [h]
      refine ⟨List.length_set _ _ _, ?_⟩
      exact set_consistent s.Buffers i b hc (by simp [hbq])

/-- C8. From a ring in which no buffer is `Queued` or `AppOwns`, after any
finite sequence of `QueueBuffer(i)` calls (accepted or refused by the driver),
`AcquireFrame` calls (whatever the device does) and release actions, each
naming a buffer of the ring, the sequence has run to a state with the same
number of buffers in which no buffer has `Queued` and `AppOwns` set together:
every buffer is in one of the states `Free`, `Queued` and `AppOwned`. -/
theorem ring_flags_exclusive (s : V4L2Capture) (evs : List RingEvent)
    (hinit : initialRing s) (hr : ∀ e ∈ evs, eventInRange s.Buffers.length e) :
    ∃ s1 : V4L2Capture, ringRun s evs = some s1 ∧
      s1.Buffers.length = s.Buffers.length ∧
      ∀ b ∈ s1.Buffers, ¬ (b.Queued = true ∧ b.AppOwns = true) ∧
        (bufferStatus b = some BufferStatus.Free ∨ bufferStatus b = some BufferStatus.Queued ∨
          bufferStatus b = some BufferStatus.AppOwned) := by
  have hstatus : ∀ b : CameraBuffer, ¬ (b.Queued = true ∧ b.AppOwns = true) →
      (bufferStatus b = some BufferStatus.Free ∨ bufferStatus b = some BufferStatus.Queued ∨
        bufferStatus b = some BufferStatus.AppOwned) := by
    intro b hb
    unfold bufferStatus
    cases hq : b.Queued <;> cases ha : b.AppOwns <;> simp_all
  have hrun : ∀ (evs : List RingEvent) (s : V4L2Capture), ringConsistent s →
      (∀ e ∈ evs, eventInRange s.Buffers.length e) →
      ∃ s1 : V4L2Capture, ringRun s evs = some s1 ∧
        s1.Buffers.length = s.Buffers.length ∧ ringConsistent s1 := by
    intro evs
    induction evs with
    | nil => intro s hc _; exact ⟨s, rfl, rfl, hc⟩
    | cons e es ih =>
      intro s hc hr
      obtain ⟨s1, h1, hl1, hc1⟩ :=
        ringEvent_consistent s e hc (hr e (List.mem_cons_self e es))
      obtain ⟨s2, h2, hl2, hc2⟩ := ih s1 hc1 (by
        intro e1 he1
        rw [hl1]
        exact hr e1 (List.mem_cons_of_mem e he1))
      refine ⟨s2, ?_, by rw [hl2, hl1], hc2⟩
      simp [ringRun, h1, h2]
  have hc0 : ringConsistent s := by
    intro b hb
    have := hinit b hb
    simp [this.1]
  obtain ⟨s1, h1, hl1, hc1⟩ := hrun evs s hc0 hr
  exact ⟨s1, h1, hl1, fun b hb => ⟨hc1 b hb, hstatus b (hc1 b hb)⟩⟩

theorem AcquireFrame_valid (s : V4L2Capture) (d : DriverInput) (b : CameraBuffer)
    (hN : kCameraBufferCount s < 2147483648)
    (hpoll : 0 < d.pollResult) (hdq : 0 ≤ d.dqbufResult)
    (hb : s.Buffers[d.buf.index]? = some b) :
    AcquireFrame s d =
      { cap := ⟨s.fd, s.Buffers.set d.buf.index { b with AppOwns := true, Queued := false },
                s.Terminated, s.ErrorState⟩,
        handled := some ⟨d.buf.sequence,
          ((d.buf.tv_sec * 1000000 + d.buf.tv_usec) % 18446744073709551616).toNat,
          b.Image, d.buf.bytesused, Int.ofNat d.buf.index⟩,
        ret := true } := by
  have hi : d.buf.index < s.Buffers.length := (List.getElem?_eq_some.mp hb).1
  unfold kCameraBufferCount at hN
  have hw : wrap32 (Int.ofNat d.buf.index) = Int.ofNat d.buf.index :=
    wrap32_id _ (by simp only [Int.ofNat_eq_coe]; omega) (by simp only [Int.ofNat_eq_coe]; omega)
  have hwN : wrap32 (Int.ofNat (kCameraBufferCount s)) = Int.ofNat s.Buffers.length :=
    wrap32_id _ (by simp only [kCameraBufferCount, Int.ofNat_eq_coe]; omega)
      (by simp only [kCameraBufferCount, Int.ofNat_eq_coe]; omega)
  have h4 : ¬ (wrap32 (Int.ofNat d.buf.index) < 0 ∨
      wrap32 (Int.ofNat d.buf.index) ≥ wrap32 (Int.ofNat (kCameraBufferCount s))) := by
    rw [hw, hwN]
    simp only [Int.ofNat_eq_coe]
    omega
  have hget : ∀ (n : Nat) (h : n < s.Buffers.length), n = d.buf.index →
      s.Buffers.get ⟨n, h⟩ = b := by
    intro n h hn
    subst hn
    rw [List.get_eq_getElem]
    exact (List.getElem?_eq_some.mp hb).2
  have hn : (wrap32 (Int.ofNat d.buf.index)).toNat = d.buf.index := by
    rw [hw]
    rfl
  unfold AcquireFrame
  rw [if_neg (by omega), if_neg (by omega), if_neg (by omega)]
  conv => zeta
  rw [dif_neg h4, hget _ _ hn, hw]
  rfl

theorem AcquireFrame_invalid (s : V4L2Capture) (d : DriverInput)
    (hN : kCameraBufferCount s < 2147483648) (hidx : d.buf.index < 4294967296)
    (hout : kCameraBufferCount s ≤ d.buf.index) :
    AcquireFrame s d = { cap := s, handled := none, ret := false } := by
  have hwN : wrap32 (Int.ofNat (kCameraBufferCount s)) = Int.ofNat (kCameraBufferCount s) :=
    wrap32_id _ (by simp only [Int.ofNat_eq_coe]; omega) (by simp only [Int.ofNat_eq_coe]; omega)
  have h4 : wrap32 (Int.ofNat d.buf.index) < 0 ∨
      wrap32 (Int.ofNat d.buf.index) ≥ wrap32 (Int.ofNat (kCameraBufferCount s)) := by
    rw [hwN]
    unfold wrap32
    simp only [Int.ofNat_eq_coe]
    omega
  unfold AcquireFrame
  by_cases h1 : d.pollResult < 0
  · rw [if_pos h1]
  · rw [if_neg h1]
    by_cases h2 : d.pollResult = 0
    · rw [if_pos h2]
    · rw [if_neg h2]
      by_cases h3 : d.dqbufResult < 0
      · rw [if_pos h3]
      · rw [if_neg h3]
        conv => zeta
        rw [dif_pos h4]

/-- C9. Let the driver report buffer index `i` (an unsigned 32-bit value) on a
successful dequeue, with `kCameraBufferCount` representable as an `int`. If
`i` names a buffer of the ring, `AcquireFrame` returns true and passes to the
handler a descriptor whose `FrameNumber` is the driver's sequence and whose
`Image` is that of buffer `i`; buffer `i` has `AppOwns` set and `Queued`
cleared and every other buffer is unchanged; and the descriptor's release
action, when the driver accepts the re-queue, leaves buffer `i` with `Queued`
set and `AppOwns` cleared, all other buffers still unchanged. If `i` is
outside the ring (which covers every value that is negative as an `int`),
`AcquireFrame` returns false, calls no handler and changes nothing. -/
theorem AcquireFrame_dequeue (s : V4L2Capture) (d : DriverInput)
    (hN : kCameraBufferCount s < 2147483648) (hidx : d.buf.index < 4294967296)
    (hpoll : 0 < d.pollResult) (hdq : 0 ≤ d.dqbufResult) :
    (∀ b : CameraBuffer, s.Buffers[d.buf.index]? = some b →
      ∃ (frame : CameraFrame) (s1 : V4L2Capture),
        AcquireFrame s d = { cap := s1, handled := some frame, ret := true } ∧
        frame.FrameNumber = d.buf.sequence ∧ frame.Image = b.Image ∧
        s1.Buffers.length = s.Buffers.length ∧
        s1.Buffers[d.buf.index]? = some { b with AppOwns := true, Queued := false } ∧
        (∀ j : Nat, j ≠ d.buf.index → s1.Buffers[j]? = s.Buffers[j]?) ∧
        s1.fd = s.fd ∧ s1.Terminated = s.Terminated ∧ s1.ErrorState = s.ErrorState ∧
        (∀ r : Int, 0 ≤ r →
          ∃ s2 : V4L2Capture, invokeRelease s1 frame r = some (s2, true) ∧
            s2.Buffers.length = s.Buffers.length ∧
            s2.Buffers[d.buf.index]? = some { b with Queued := true, AppOwns := false } ∧
            (∀ j : Nat, j ≠ d.buf.index → s2.Buffers[j]? = s.Buffers[j]?))) ∧
    (kCameraBufferCount s ≤ d.buf.index →
      AcquireFrame s d = { cap := s, handled := none, ret := false }) := by
  refine ⟨?_, AcquireFrame_invalid s d hN hidx⟩
  intro b hb
  have hi : d.buf.index < s.Buffers.length := (List.getElem?_eq_some.mp hb).1
  refine ⟨_, _, AcquireFrame_valid s d b hN hpoll hdq hb, rfl, rfl, by simp,
    by simp [List.getElem?_set_self hi], ?_, rfl, rfl, rfl, ?_⟩
  · intro j hj
    simp [List.getElem?_set_ne (Ne.symm hj)]
  · intro r hr
    have hu : toU32 (Int.ofNat d.buf.index) = d.buf.index := by
      rw [toU32_nonneg _ (by simp only [Int.ofNat_eq_coe]; omega)
        (by simp only [Int.ofNat_eq_coe]; omega)]
      simp
    have hb1 : (s.Buffers.set d.buf.index { b with AppOwns := true, Queued := false })[
        d.buf.index]? = some { b with AppOwns := true, Queued := false } := by
      simp [List.getElem?_set_self hi]
    unfold invokeRelease
    simp only [hu]
    have hd : decide (0 ≤ r) = true := by simp [hr]
    rw [QueueBuffer_eq _ d.buf.index r _ hb1, hd]
    refine ⟨_, rfl, by simp, ?_, ?_⟩
    · simp [List.getElem?_set_self hi]
    · intro j hj
      simp [List.getElem?_set_ne (Ne.symm hj)]

/-! ## Shutdown -/

theorem appOwned_fold (bs : List CameraBuffer) (acc : Int) (h0 : 0 ≤ acc)
    (h1 : acc + Int.ofNat bs.length < 2147483648) :
    bs.foldl (fun count buffer => if buffer.AppOwns then add32 count 1 else count) acc =
      acc + Int.ofNat (bs.countP (fun b => b.AppOwns)) := by
  induction bs generalizing acc with
  | nil => simp
  | cons b bs ih =>
    simp only [List.length_cons, Int.ofNat_eq_coe, Nat.cast_add, Nat.cast_one] at h1
    rw [List.foldl_cons]
    cases hb : b.AppOwns
    · have hc : List.countP (fun b => b.AppOwns) (b :: bs) =
          List.countP (fun b => b.AppOwns) bs := List.countP_cons_of_neg _ _ (by simp [hb])
      rw [hc]
      simp only [Bool.false_eq_true, if_false]
      exact ih acc h0 (by simp only [Int.ofNat_eq_coe]; omega)
    · have hc : List.countP (fun b => b.AppOwns) (b :: bs) =
          List.countP (fun b => b.AppOwns) bs + 1 := List.countP_cons_of_pos _ _ (by simp [hb])
      rw [hc]
      simp only [if_true]
      have ha : add32 acc 1 = acc + 1 := wrap32_id _ (by omega) (by omega)
      rw [ha, ih (acc + 1) (by omega) (by simp only [Int.ofNat_eq_coe]; omega)]
      simp only [Int.ofNat_eq_coe, Nat.cast_add, Nat.cast_one]
      ring

theorem GetAppOwnedCount_eq (s : V4L2Capture) (hN : kCameraBufferCount s < 2147483648) :
    GetAppOwnedCount s = Int.ofNat (s.Buffers.countP (fun b => b.AppOwns)) := by
  unfold kCameraBufferCount at hN
  unfold GetAppOwnedCount
  rw [appOwned_fold s.Buffers 0 (le_refl 0) (by simp only [Int.ofNat_eq_coe]; omega)]
  simp

theorem QueueBuffer_images (s s1 : V4L2Capture) (index : Nat) (r : Int) (ret : Bool)
    (h : QueueBuffer s index r = some (s1, ret)) :
    s1.Buffers.map (fun b => b.Image) = s.Buffers.map (fun b => b.Image) ∧
    s1.Buffers.length = s.Buffers.length ∧
    ((∀ b ∈ s.Buffers, b.AppOwns = false) → ∀ b ∈ s1.Buffers, b.AppOwns = false) := by
  cases hb : s.Buffers[index]? with
  | none => simp [QueueBuffer, hb] at h
  | some b =>
    rw [QueueBuffer_eq s index r b hb] at h
    have hs : s1 = ⟨s.fd, s.Buffers.set index { b with Queued := decide (0 ≤ r), AppOwns := false },
        s.Terminated, s.ErrorState⟩ := by
      have := Option.some.inj h
      exact (congrArg Prod.fst this).symm
    subst hs
    refine ⟨?_, by simp, ?_⟩
    · apply List.ext_getElem?
      intro j
      by_cases hj : index = j
      · subst hj
        have hi : index < s.Buffers.length := (List.getElem?_eq_some.mp hb).1
        rw [List.getElem?_map, List.getElem?_map, List.getElem?_set_self hi, hb]
        rfl
      · rw [List.getElem?_map, List.getElem?_map, List.getElem?_set_ne hj]
    · intro hall x hx
      rcases List.mem_or_eq_of_mem_set hx with hm | hm
      · exact hall x hm
      · rw [hm]

theorem shutdownEvent_inv (st st1 : ShutdownState) (e : ShutdownEvent)
    (hN : kCameraBufferCount st.cap < 2147483648)
    (hinv : st.pc = ShutdownPc.unmap → ∀ b ∈ st.cap.Buffers, b.AppOwns = false)
    (h : shutdownEvent st e = some st1) :
    st1.cap.Buffers.length = st.cap.Buffers.length ∧
    (st1.pc = ShutdownPc.unmap → ∀ b ∈ st1.cap.Buffers, b.AppOwns = false) := by
  cases e with
  | release index r =>
    unfold shutdownEvent at h
    cases hq : QueueBuffer st.cap index r with
    | none => simp [hq] at h
    | some p =>
      obtain ⟨cap1, ret⟩ := p
      simp only [hq, Option.some.injEq] at h
      subst h
      obtain ⟨_, hl, hall⟩ := QueueBuffer_images st.cap cap1 index r ret hq
      exact ⟨hl, fun hpc => hall (hinv hpc)⟩
  | step =>
    simp only [shutdownEvent, Option.some.injEq] at h
    subst h
    unfold ShutdownStep
    cases hpc : st.pc with
    | entry =>
      by_cases hfd : st.cap.fd = -1
      · simp [hfd]
      · simp [hfd]
    | drain =>
      by_cases hc : GetAppOwnedCount st.cap > 0
      · simp [hc, hpc]
      · simp only [hc, if_false, true_and]
        intro _ b hb
        rw [GetAppOwnedCount_eq st.cap hN] at hc
        have hz : st.cap.Buffers.countP (fun b => b.AppOwns) = 0 := by
          simp only [Int.ofNat_eq_coe] at hc
          omega
        have := (List.countP_eq_zero.mp hz) b hb
        simpa using this
    | unmap => simp [unmapBuffers]
    | done => simp [hpc]

theorem shutdownRun_inv (evs : List ShutdownEvent) (st st1 : ShutdownState)
    (hN : kCameraBufferCount st.cap < 2147483648)
    (hinv : st.pc = ShutdownPc.unmap → ∀ b ∈ st.cap.Buffers, b.AppOwns = false)
    (h : shutdownRun st evs = some st1) :
    st1.cap.Buffers.length = st.cap.Buffers.length ∧
    (st1.pc = ShutdownPc.unmap → ∀ b ∈ st1.cap.Buffers, b.AppOwns = false) := by
  induction evs generalizing st with
  | nil =>
    simp only [shutdownRun, Option.some.injEq] at h
    subst h
    exact ⟨rfl, hinv⟩
  | cons e es ih =>
    unfold shutdownRun at h
    cases he : shutdownEvent st e with
    | none => simp [he] at h
    | some st2 =>
      simp only [he] at h
      obtain ⟨hl2, hinv2⟩ := shutdownEvent_inv st st2 e hN hinv he
      have hN2 : kCameraBufferCount st2.cap < 2147483648 := by
        unfold kCameraBufferCount at hN ⊢
        omega
      obtain ⟨hl1, hinv1⟩ := ih st2 hN2 hinv2 h
      exact ⟨by rw [hl1, hl2], hinv1⟩

theorem shutdownEvent_images (st st1 : ShutdownState) (e : ShutdownEvent)
    (h : shutdownEvent st e = some st1)
    (hne : st1.cap.Buffers.map (fun b => b.Image) ≠ st.cap.Buffers.map (fun b => b.Image)) :
    e = ShutdownEvent.step ∧ st.pc = ShutdownPc.unmap := by
  cases e with
  | release index r =>
    exfalso
    unfold shutdownEvent at h
    cases hq : QueueBuffer st.cap index r with
    | none => simp [hq] at h
    | some p =>
      obtain ⟨cap1, ret⟩ := p
      simp only [hq, Option.some.injEq] at h
      subst h
      exact hne (QueueBuffer_images st.cap cap1 index r ret hq).1
  | step =>
    refine ⟨rfl, ?_⟩
    simp only [shutdownEvent, Option.some.injEq] at h
    subst h
    by_contra hpc
    apply hne
    unfold ShutdownStep
    cases hp : st.pc with
    | entry =>
      by_cases hfd : st.cap.fd = -1
      · simp [hfd]
      · simp [hfd]
    | drain =>
      by_cases hc : GetAppOwnedCount st.cap > 0
      · simp [hc]
      · simp [hc]
    | unmap => exact absurd hp hpc
    | done => simp

/-- C1. Run `Shutdown` from its entry on any capture object, interleaved in
any way with release actions of the application, up to some state `st`. Then
`GetAppOwnedCount()` is the number of buffers with `AppOwns` set; an event
that changes any buffer's `Image` can only be the shutting-down thread's
unmap step, and the state it is taken from has `GetAppOwnedCount() = 0`; at
the head of the drain loop a positive count leaves the whole state unchanged
and a zero count leaves the loop; the unmap step clears every `Image`. With
`fd = -1` the call returns at once and changes nothing. -/
theorem Shutdown_unmaps_only_when_drained (cap : V4L2Capture) (evs : List ShutdownEvent)
    (st : ShutdownState) (hN : kCameraBufferCount cap < 2147483648)
    (hrun : shutdownRun ⟨cap, ShutdownPc.entry⟩ evs = some st) :
    GetAppOwnedCount st.cap = Int.ofNat (st.cap.Buffers.countP (fun b => b.AppOwns)) ∧
    (∀ (e : ShutdownEvent) (st1 : ShutdownState), shutdownEvent st e = some st1 →
      st1.cap.Buffers.map (fun b => b.Image) ≠ st.cap.Buffers.map (fun b => b.Image) →
      e = ShutdownEvent.step ∧ st.pc = ShutdownPc.unmap ∧ GetAppOwnedCount st.cap = 0) ∧
    (st.pc = ShutdownPc.drain → 0 < GetAppOwnedCount st.cap → ShutdownStep st = st) ∧
    (st.pc = ShutdownPc.drain → GetAppOwnedCount st.cap = 0 →
      ShutdownStep st = { st with pc := ShutdownPc.unmap }) ∧
    (st.pc = ShutdownPc.unmap → ∀ b ∈ (ShutdownStep st).cap.Buffers, b.Image = 0) ∧
    (cap.fd = -1 → ShutdownStep ⟨cap, ShutdownPc.entry⟩ = ⟨cap, ShutdownPc.done⟩ ∧
      ShutdownStep ⟨cap, ShutdownPc.done⟩ = ⟨cap, ShutdownPc.done⟩) := by
  obtain ⟨hl, hinv⟩ := shutdownRun_inv evs ⟨cap, ShutdownPc.entry⟩ st hN
    (by intro h; cases h) hrun
  have hNst : kCameraBufferCount st.cap < 2147483648 := by
    unfold kCameraBufferCount at hN ⊢
    simp only at hl
    omega
  have hcount := GetAppOwnedCount_eq st.cap hNst
  refine ⟨hcount, ?_, ?_, ?_, ?_, ?_⟩
  · intro e st1 he hne
    obtain ⟨h1, h2⟩ := shutdownEvent_images st st1 e he hne
    refine ⟨h1, h2, ?_⟩
    rw [hcount]
    have hz : st.cap.Buffers.countP (fun b => b.AppOwns) = 0 := by
      rw [List.countP_eq_zero]
      intro b hb
      simp [hinv h2 b hb]
    rw [hz]
    rfl
  · intro hpc hpos
    simp [ShutdownStep, hpc, hpos]
  · intro hpc hzero
    simp [ShutdownStep, hpc, hzero]
  · intro hpc b hb
    simp only [ShutdownStep, hpc, unmapBuffers, List.mem_map] at hb
    obtain ⟨a, _, ha⟩ := hb
    by_cases h0 : a.Image = 0
    · simp only [h0, ne_eq, not_true_eq_false, if_false] at ha
      rw [← ha]; exact h0
    · simp only [ne_eq, h0, not_false_eq_true, if_true] at ha
      rw [← ha]
  · intro hfd
    simp [ShutdownStep, hfd]

theorem Shutdown_unmaps_only_when_drained_witness :
    kCameraBufferCount shutdownDemo < 2147483648 ∧
    shutdownRun ⟨shutdownDemo, ShutdownPc.entry⟩ shutdownDemoEvents =
      some shutdownDemoDrained ∧
    shutdownDemoDrained.pc = ShutdownPc.unmap ∧
    shutdownRun ⟨shutdownDemo, ShutdownPc.entry⟩ (shutdownDemoEvents ++ [ShutdownEvent.step]) =
      some ⟨⟨-1, [⟨0, 100, true, false⟩, ⟨0, 100, true, false⟩, ⟨0, 100, true, false⟩],
        true, false⟩, ShutdownPc.done⟩ ∧
    (GetAppOwnedCount shutdownDemoDrained.cap =
      Int.ofNat (shutdownDemoDrained.cap.Buffers.countP (fun b => b.AppOwns)) ∧
    (∀ (e : ShutdownEvent) (st1 : ShutdownState), shutdownEvent shutdownDemoDrained e = some st1 →
      st1.cap.Buffers.map (fun b => b.Image) ≠
        shutdownDemoDrained.cap.Buffers.map (fun b => b.Image) →
      e = ShutdownEvent.step ∧ shutdownDemoDrained.pc = ShutdownPc.unmap ∧
        GetAppOwnedCount shutdownDemoDrained.cap = 0) ∧
    (shutdownDemoDrained.pc = ShutdownPc.drain → 0 < GetAppOwnedCount shutdownDemoDrained.cap →
      ShutdownStep shutdownDemoDrained = shutdownDemoDrained) ∧
    (shutdownDemoDrained.pc = ShutdownPc.drain → GetAppOwnedCount shutdownDemoDrained.cap = 0 →
      ShutdownStep shutdownDemoDrained = { shutdownDemoDrained with pc := ShutdownPc.unmap }) ∧
    (shutdownDemoDrained.pc = ShutdownPc.unmap →
      ∀ b ∈ (ShutdownStep shutdownDemoDrained).cap.Buffers, b.Image = 0) ∧
    (shutdownDemo.fd = -1 →
      ShutdownStep ⟨shutdownDemo, ShutdownPc.entry⟩ = ⟨shutdownDemo, ShutdownPc.done⟩ ∧
      ShutdownStep ⟨shutdownDemo, ShutdownPc.done⟩ = ⟨shutdownDemo, ShutdownPc.done⟩)) :=
  ⟨by decide, by decide, by decide, by decide,
    Shutdown_unmaps_only_when_drained shutdownDemo shutdownDemoEvents shutdownDemoDrained
      (by decide) (by decide)⟩

theorem ring_flags_exclusive_witness :
    initialRing ringFree ∧
    (∀ e ∈ ringDemoEvents, eventInRange ringFree.Buffers.length e) ∧
    ringRun ringFree ringDemoEvents =
      some ⟨3, [⟨4096, 100, false, false⟩, ⟨8192, 100, true, false⟩,
        ⟨12288, 100, true, false⟩, ⟨16384, 100, false, true⟩], false, false⟩ ∧
    ∃ s1 : V4L2Capture, ringRun ringFree ringDemoEvents = some s1 ∧
      s1.Buffers.length = ringFree.Buffers.length ∧
      ∀ b ∈ s1.Buffers, ¬ (b.Queued = true ∧ b.AppOwns = true) ∧
        (bufferStatus b = some BufferStatus.Free ∨ bufferStatus b = some BufferStatus.Queued ∨
          bufferStatus b = some BufferStatus.AppOwned) :=
  ⟨by simp [initialRing, ringFree],
    by simp [ringDemoEvents, eventInRange, ringFree, toU32],
    by decide,
    ring_flags_exclusive ringFree ringDemoEvents (by simp [initialRing, ringFree])
      (by simp [ringDemoEvents, eventInRange, ringFree, toU32])⟩

theorem AcquireFrame_dequeue_witness :
    kCameraBufferCount ring4 < 2147483648 ∧ dequeue2.buf.index < 4294967296 ∧
    0 < dequeue2.pollResult ∧ 0 ≤ dequeue2.dqbufResult ∧
    AcquireFrame ring4 dequeue2 =
      { cap := ⟨3, [⟨4096, 100, true, false⟩, ⟨8192, 100, true, false⟩,
                    ⟨12288, 100, false, true⟩, ⟨16384, 100, true, false⟩], false, false⟩,
        handled := some ⟨77, 5000006, 12288, 50, 2⟩, ret := true } ∧
    ((∀ b : CameraBuffer, ring4.Buffers[dequeue2.buf.index]? = some b →
      ∃ (frame : CameraFrame) (s1 : V4L2Capture),
        AcquireFrame ring4 dequeue2 = { cap := s1, handled := some frame, ret := true } ∧
        frame.FrameNumber = dequeue2.buf.sequence ∧ frame.Image = b.Image ∧
        s1.Buffers.length = ring4.Buffers.length ∧
        s1.Buffers[dequeue2.buf.index]? = some { b with AppOwns := true, Queued := false } ∧
        (∀ j : Nat, j ≠ dequeue2.buf.index → s1.Buffers[j]? = ring4.Buffers[j]?) ∧
        s1.fd = ring4.fd ∧ s1.Terminated = ring4.Terminated ∧
        s1.ErrorState = ring4.ErrorState ∧
        (∀ r : Int, 0 ≤ r →
          ∃ s2 : V4L2Capture, invokeRelease s1 frame r = some (s2, true) ∧
            s2.Buffers.length = ring4.Buffers.length ∧
            s2.Buffers[dequeue2.buf.index]? = some { b with Queued := true, AppOwns := false } ∧
            (∀ j : Nat, j ≠ dequeue2.buf.index → s2.Buffers[j]? = ring4.Buffers[j]?))) ∧
    (kCameraBufferCount ring4 ≤ dequeue2.buf.index →
      AcquireFrame ring4 dequeue2 = { cap := ring4, handled := none, ret := false })) :=
  ⟨by decide, by decide, by decide, by decide, by decide,
    AcquireFrame_dequeue ring4 dequeue2 (by decide) (by decide) (by decide) (by decide)⟩

end kvm
